import Mathlib

/-!
Verification development for the pagination / category-resolution / cart-upsert
core of the E-commerce backend.

The definitions below are a shallow embedding of the JavaScript source:

* `src/backend/controllers/product.controller.js` — cursor codec
  (`encodeCursor`/`decodeCursor`), query composer (`buildCursorFilter`,
  `combineQuery`, `buildSort`), category tree resolver
  (`getDescendantCategoryIds`) and the paginated lister (`listProducts`).
* `src/backend/controllers/cart.controller.js` — `normalizeQuantity` and the
  unique-relation upserter (`addToCartItemController`).

Modelling conventions:

* JavaScript `Date` instants are modelled as UTC calendar records (`DateRec`);
  `Date.prototype.toISOString` and ISO-format `Date` parsing are modelled over
  those records (`toISOString` / `parseISODate`).  The parser accepts exactly
  the canonical `YYYY-MM-DDTHH:MM:SS.sssZ` form that `toISOString` emits;
  other `Date` input formats accepted by JavaScript are out of scope (any
  such string is treated as a parse failure, which the decoder converts to
  the same `Invalid cursor` error the JavaScript code produces for them
  only when they are actually invalid; no claim depends on the extra formats).
* `Buffer.from(s).toString('base64')` / `Buffer.from(v, 'base64')` are
  modelled by `b64encodeStr` / `b64decodeStr` over byte lists; the payload
  strings are pure ASCII so UTF-8 encoding is the identity on bytes.
* `JSON.stringify` / `JSON.parse` are modelled for the concrete two-string
  payload object the codec uses (`mkCursorPayload` / `parseCursorPayload`);
  the payload components emitted by the codec contain no characters that
  JSON would escape.
* `mongoose.isValidObjectId` is modelled for the 24-hex-character form
  (`isValidObjectId`); `new mongoose.Types.ObjectId(s)` on a hex string is
  value-preserving, so it is modelled as the identity on the string.
* MongoDB queries are modelled by the little language `MQuery` with
  Boolean semantics `evalQ` over product records `Rec`; `find(...).sort(...)
  .skip(...).limit(...)` is modelled by `findM` (filter, sort by the given
  sort specification, drop, take).  Date comparison is by time value
  (`dcode`), `_id` comparison is bytewise (`hexVal`).
* Fallible store operations in the upserter are modelled by explicit oracle
  arguments (`CreateOutcome`, the result of each read), which capture the
  possible interleavings with concurrent writers.
-/

namespace ECom

instance {ε α : Type} [DecidableEq ε] [DecidableEq α] : DecidableEq (Except ε α) := fun x y =>
  match x, y with
  | .ok a, .ok b => if h : a = b then .isTrue (by rw [h]) else .isFalse (by simp [h])
  | .error a, .error b => if h : a = b then .isTrue (by rw [h]) else .isFalse (by simp [h])
  | .ok _, .error _ => .isFalse (by simp)
  | .error _, .ok _ => .isFalse (by simp)

/-- Model of `ApiError` from `src/backend/utils/ApiError.js`: an HTTP status
code plus a message. -/
structure ApiErr where
  status : Nat
  msg : String
deriving DecidableEq, Repr

/-- The error `new ApiError(400, 'Invalid cursor')` thrown by `decodeCursor`. -/
def invalidCursorErr : ApiErr := ⟨400, "Invalid cursor"⟩

/-- The error `new ApiError(400, 'Cursor pagination supports only newest or oldest sorting')`. -/
def cursorSortErr : ApiErr := ⟨400, "Cursor pagination supports only newest or oldest sorting"⟩

/-- The error `new ApiError(400, 'Requested quantity exceeds available stock')`. -/
def capacityErr : ApiErr := ⟨400, "Requested quantity exceeds available stock"⟩

/-- A UTC calendar instant, the model of a JavaScript `Date` value. -/
structure DateRec where
  year : Nat
  month : Nat
  day : Nat
  hour : Nat
  minute : Nat
  second : Nat
  ms : Nat
deriving DecidableEq, Repr

/-- A valid instant: all fields in the ranges `toISOString` can emit with a
four-digit year.  (Day validity is at the 1–31 granularity; a `Date` value
always carries a real calendar date, which is a subset of this domain.) -/
def DateRec.Valid (d : DateRec) : Prop :=
  d.year ≤ 9999 ∧ 1 ≤ d.month ∧ d.month ≤ 12 ∧ 1 ≤ d.day ∧ d.day ≤ 31 ∧
    d.hour ≤ 23 ∧ d.minute ≤ 59 ∧ d.second ≤ 59 ∧ d.ms ≤ 999

instance (d : DateRec) : Decidable d.Valid := by
  unfold DateRec.Valid; infer_instance

/-- The decimal digit character for `n < 10` (default `'9'` outside). -/
def digitChar (n : Nat) : Char :=
  match n with
  | 0 => '0' | 1 => '1' | 2 => '2' | 3 => '3' | 4 => '4'
  | 5 => '5' | 6 => '6' | 7 => '7' | 8 => '8' | _ => '9'

/-- Numeric value of a decimal digit character, `none` for non-digits. -/
def digitVal (c : Char) : Option Nat :=
  if 48 ≤ c.toNat ∧ c.toNat ≤ 57 then some (c.toNat - 48) else none

/-- Two-digit zero-padded decimal rendering (`String.prototype.padStart`-style,
as `toISOString` renders month, day, hour, minute, second). -/
def pad2 (n : Nat) : List Char := [digitChar (n / 10), digitChar (n % 10)]

/-- Three-digit zero-padded decimal rendering (milliseconds). -/
def pad3 (n : Nat) : List Char :=
  [digitChar (n / 100), digitChar (n / 10 % 10), digitChar (n % 10)]

/-- Four-digit zero-padded decimal rendering (year). -/
def pad4 (n : Nat) : List Char :=
  [digitChar (n / 1000), digitChar (n / 100 % 10), digitChar (n / 10 % 10), digitChar (n % 10)]

/-- Model of `Date.prototype.toISOString`: canonical
`YYYY-MM-DDTHH:MM:SS.sssZ` rendering of the instant. -/
def toISOString (d : DateRec) : String :=
  String.mk (pad4 d.year ++ '-' :: pad2 d.month ++ '-' :: pad2 d.day ++
    'T' :: pad2 d.hour ++ ':' :: pad2 d.minute ++ ':' :: pad2 d.second ++
    '.' :: pad3 d.ms ++ ['Z'])

/-- Combine two decimal digit characters. -/
def parse2 (a b : Char) : Option Nat := do
  pure ((← digitVal a) * 10 + (← digitVal b))

/-- Combine three decimal digit characters. -/
def parse3 (a b c : Char) : Option Nat := do
  pure ((← digitVal a) * 100 + (← digitVal b) * 10 + (← digitVal c))

/-- Combine four decimal digit characters. -/
def parse4 (a b c d : Char) : Option Nat := do
  pure ((← digitVal a) * 1000 + (← digitVal b) * 100 + (← digitVal c) * 10 + (← digitVal d))

/-- Model of `new Date(s)` on the canonical ISO format: parses
`YYYY-MM-DDTHH:MM:SS.sssZ`, returning `none` (the model of an invalid date,
`Number.isNaN(d.getTime())`) when the shape or a field range is wrong. -/
def parseISODate (s : String) : Option DateRec :=
  match s.data with
  | [y1, y2, y3, y4, c1, m1, m2, c2, d1, d2, c3, h1, h2, c4, n1, n2, c5, s1, s2, c6, f1, f2, f3, c7] =>
    if c1 = '-' ∧ c2 = '-' ∧ c3 = 'T' ∧ c4 = ':' ∧ c5 = ':' ∧ c6 = '.' ∧ c7 = 'Z' then
      match parse4 y1 y2 y3 y4, parse2 m1 m2, parse2 d1 d2, parse2 h1 h2,
          parse2 n1 n2, parse2 s1 s2, parse3 f1 f2 f3 with
      | some y, some mo, some dd, some h, some mi, some ss, some f =>
        if 1 ≤ mo ∧ mo ≤ 12 ∧ 1 ≤ dd ∧ dd ≤ 31 ∧ h ≤ 23 ∧ mi ≤ 59 ∧ ss ≤ 59 then
          some ⟨y, mo, dd, h, mi, ss, f⟩
        else none
      | _, _, _, _, _, _, _ => none
    else none
  | _ => none

/-- Hexadecimal digit test (both cases, by code point), as in ObjectId
syntax. -/
def isHexDigit (c : Char) : Bool :=
  if (48 ≤ c.toNat ∧ c.toNat ≤ 57) ∨ (97 ≤ c.toNat ∧ c.toNat ≤ 102) ∨
      (65 ≤ c.toNat ∧ c.toNat ≤ 70) then true
  else false

/-- Model of `mongoose.isValidObjectId` for string input: 24 hexadecimal
characters.  (The legacy 12-arbitrary-character form is not modelled; no
identifier the codec emits has that form.) -/
def isValidObjectId (s : String) : Bool :=
  s.length = 24 && s.data.all isHexDigit

/-- Numeric value of a hexadecimal digit character (0 for non-hex). -/
def hexDigitVal (c : Char) : Nat :=
  if 48 ≤ c.toNat ∧ c.toNat ≤ 57 then c.toNat - 48
  else if 97 ≤ c.toNat ∧ c.toNat ≤ 102 then c.toNat - 87
  else if 65 ≤ c.toNat ∧ c.toNat ≤ 70 then c.toNat - 55
  else 0

/-- Numeric (big-endian bytewise) value of a hex string — the order MongoDB
uses to compare `_id` values of equal length. -/
def hexVal (s : String) : Nat :=
  s.data.foldl (fun a c => a * 16 + hexDigitVal c) 0

/-- The base64 alphabet. -/
def b64Alphabet : List Char :=
  "ABCDEFGHIJKLMNOPQRSTUVWXYZabcdefghijklmnopqrstuvwxyz0123456789+/".data

/-- The base64 character for a 6-bit value. -/
def b64char (n : Nat) : Char := b64Alphabet.getD n 'A'

/-- The 6-bit value of a base64 character, `none` outside the alphabet. -/
def b64val (c : Char) : Option Nat :=
  if c ∈ b64Alphabet then some (b64Alphabet.indexOf c) else none

/-- Base64 encoding of a byte list, with `'='` padding (the encoding
`Buffer.prototype.toString('base64')` produces). -/
def b64encodeBytes : List Nat → List Char
  | a :: b :: c :: rest =>
    b64char (a / 4) :: b64char (a % 4 * 16 + b / 16) ::
      b64char (b % 16 * 4 + c / 64) :: b64char (c % 64) :: b64encodeBytes rest
  | [a, b] => [b64char (a / 4), b64char (a % 4 * 16 + b / 16), b64char (b % 16 * 4), '=']
  | [a] => [b64char (a / 4), b64char (a % 4 * 16), '=', '=']
  | [] => []

/-- Base64 decoding of a character list.  Node's decoder is lenient (it skips
characters it does not understand); this model is strict and returns `none`
instead — the decoder's caller turns every failure into the same
`Invalid cursor` error that the lenient decoder's garbage output produces
via the subsequent JSON parse failure. -/
def b64decodeBytes : List Char → Option (List Nat)
  | [] => some []
  | a :: b :: c :: d :: rest =>
    match b64val a, b64val b with
    | some va, some vb =>
      if c = '=' ∧ d = '=' ∧ rest = [] then some [va * 4 + vb / 16]
      else
        match b64val c with
        | some vc =>
          if d = '=' ∧ rest = [] then some [va * 4 + vb / 16, vb % 16 * 16 + vc / 4]
          else
            match b64val d, b64decodeBytes rest with
            | some vd, some bs =>
              some ((va * 4 + vb / 16) :: (vb % 16 * 16 + vc / 4) :: (vc % 4 * 64 + vd) :: bs)
            | _, _ => none
        | none => none
    | _, _ => none
  | _ => none

/-- UTF-8 bytes of a string; on the ASCII strings the codec handles this is
the code-point list. -/
def strToBytes (s : String) : List Nat := s.data.map Char.toNat

/-- Bytes back to a string (ASCII only; non-ASCII bytes make the result
`none`, which the decoder treats as a failure). -/
def bytesToStr (bs : List Nat) : Option String :=
  if bs.all (· < 128) then some (String.mk (bs.map Char.ofNat)) else none

/-- Model of `Buffer.from(s).toString('base64')`. -/
def b64encodeStr (s : String) : String := String.mk (b64encodeBytes (strToBytes s))

/-- Model of `Buffer.from(v, 'base64').toString('utf8')` (strict, see
`b64decodeBytes`). -/
def b64decodeStr (s : String) : Option String := (b64decodeBytes s.data).bind bytesToStr

/-- Model of `JSON.stringify({createdAt, id})` for the codec's payload.  The components
the codec passes contain no `"` or `\`, so no escaping occurs. -/
def mkCursorPayload (createdAt id : String) : String :=
  "\x7b\"createdAt\":\"" ++ createdAt ++ "\",\"id\":\"" ++ id ++ "\"\x7d"

/-- Scan a JSON string body up to its closing quote (escape sequences are not
modelled: a backslash makes the scan fail, and the codec never emits one). -/
def scanJsonStr : List Char → Option (List Char × List Char)
  | [] => none
  | c :: rest =>
    if c = '"' then some ([], rest)
    else if c = '\\' then none
    else (scanJsonStr rest).map fun p => (c :: p.1, p.2)

/-- Consume an expected literal character sequence. -/
def dropLit : List Char → List Char → Option (List Char)
  | [], rest => some rest
  | p :: ps, c :: cs => if c = p then dropLit ps cs else none
  | _ :: _, [] => none

/-- Model of `JSON.parse` specialised to the codec's payload shape
`{"createdAt":"…","id":"…"}` (the only shape `encodeCursor` produces). -/
def parseCursorPayload (s : String) : Option (String × String) := do
  let r1 ← dropLit "\x7b\"createdAt\":\"".data s.data
  let (a, r2) ← scanJsonStr r1
  let r3 ← dropLit ",\"id\":\"".data r2
  let (b, r4) ← scanJsonStr r3
  let r5 ← dropLit "\x7d".data r4
  if r5 = [] then pure (String.mk a, String.mk b) else none

/-- A character JSON embeds literally inside a string (no `"`, no `\`); every
character the cursor payload components contain is of this kind. -/
def jsonSafeChar (c : Char) : Bool := !decide (c = '"') && !decide (c = '\\')

/-- A decoded pagination cursor: `{ createdAt, id }`. -/
structure Cursor where
  createdAt : DateRec
  id : String
deriving DecidableEq, Repr

/-- The time value of an instant (a strictly monotone mixed-radix code;
on valid instants it is injective and ordered chronologically, like the
millisecond value a JavaScript `Date` carries). -/
def dcode (d : DateRec) : Nat :=
  (((((d.year * 100 + d.month) * 100 + d.day) * 100 + d.hour) * 100 + d.minute) * 100 + d.second) * 1000 + d.ms

/-- A stored document as the lister sees it: `_id`, `createdAt` and the two
numeric fields the sort keys can reference. -/
structure Rec where
  id : String
  createdAt : DateRec
  price : Rat
  rating : Rat
deriving DecidableEq, Repr

/-- A well-formed stored document: valid instant, syntactically valid id. -/
def Rec.Valid (r : Rec) : Prop :=
  r.createdAt.Valid ∧ isValidObjectId r.id = true

/-- Model of `encodeCursor` (product.controller.js lines 26–32): base64 of the JSON
payload `{createdAt: doc.createdAt.toISOString(), id: doc._id.toString()}`. -/
def encodeCursor (doc : Rec) : String :=
  b64encodeStr (mkCursorPayload (toISOString doc.createdAt) doc.id)

/-- Model of `decodeCursor` (product.controller.js lines 34–52).  Every failure —
malformed token, missing/empty fields (JavaScript falsiness of the absent or
empty string), unparseable timestamp, invalid identifier — produces the same
`Invalid cursor` `ApiError`; the surrounding `try`/`catch` rethrows `ApiError`s
and converts any other exception to the same error. -/
def decodeCursor (value : String) : Except ApiErr Cursor :=
  match b64decodeStr value with
  | none => .error invalidCursorErr
  | some json =>
    match parseCursorPayload json with
    | none => .error invalidCursorErr
    | some (c, i) =>
      if c = "" ∨ i = "" then .error invalidCursorErr
      else
        match parseISODate c with
        | none => .error invalidCursorErr
        | some t => if isValidObjectId i then .ok ⟨t, i⟩ else .error invalidCursorErr

/-- The document fields the lister's filters and sort keys reference. -/
inductive MField
  | createdAt
  | id
  | price
  | rating
deriving DecidableEq, Repr

/-- A MongoDB value in a filter condition. -/
inductive MVal
  | date (d : DateRec)
  | oid (s : String)
  | num (q : Rat)
deriving DecidableEq, Repr

/-- The value a document holds at a field. -/
def fieldVal (f : MField) (r : Rec) : MVal :=
  match f with
  | .createdAt => .date r.createdAt
  | .id => .oid r.id
  | .price => .num r.price
  | .rating => .num r.rating

/-- MongoDB `<` on same-typed values: dates by time value, ids bytewise,
numbers numerically. -/
def mvalLt : MVal → MVal → Bool
  | .date a, .date b => decide (dcode a < dcode b)
  | .oid a, .oid b => decide (hexVal a < hexVal b)
  | .num a, .num b => decide (a < b)
  | _, _ => false

/-- MongoDB equality on same-typed values (dates by time value, ids by byte
value). -/
def mvalEqB : MVal → MVal → Bool
  | .date a, .date b => decide (dcode a = dcode b)
  | .oid a, .oid b => decide (hexVal a = hexVal b)
  | .num a, .num b => decide (a = b)
  | _, _ => false

/-- Comparison operators occurring in the composed queries. -/
inductive MOp
  | lt
  | gt
  | eq
deriving DecidableEq, Repr

/-- The fragment of MongoDB filter documents the lister composes: the empty
filter `{}`, a single field condition, `$and` of two filters and `$or` of two
filters. -/
inductive MQuery
  | trueQ
  | cmp (f : MField) (op : MOp) (v : MVal)
  | andQ (a b : MQuery)
  | orQ (a b : MQuery)
deriving DecidableEq, Repr

/-- Whether a document matches a filter. -/
def evalQ : MQuery → Rec → Bool
  | .trueQ, _ => true
  | .cmp f op v, r =>
    match op with
    | .lt => mvalLt (fieldVal f r) v
    | .gt => mvalLt v (fieldVal f r)
    | .eq => mvalEqB (fieldVal f r) v
  | .andQ a b, r => evalQ a r && evalQ b r
  | .orQ a b, r => evalQ a r || evalQ b r

/-- Model of `buildCursorFilter` (product.controller.js lines 54–70): the keyset filter
`{$or: [{createdAt: {$lt c}}, {createdAt: c, _id: {$lt id}}]}` for the default
(`newest`, descending) direction and the mirrored `$gt` form when
`sortKey === 'oldest'`. -/
def buildCursorFilter (cursor : Cursor) (sortKey : Option String) : MQuery :=
  if sortKey = some "oldest" then
    .orQ (.cmp .createdAt .gt (.date cursor.createdAt))
      (.andQ (.cmp .createdAt .eq (.date cursor.createdAt)) (.cmp .id .gt (.oid cursor.id)))
  else
    .orQ (.cmp .createdAt .lt (.date cursor.createdAt))
      (.andQ (.cmp .createdAt .eq (.date cursor.createdAt)) (.cmp .id .lt (.oid cursor.id)))

/-- Model of `combineQuery` (product.controller.js lines 72–76): no extra query keeps
the base; an empty base (`Object.keys(baseQuery).length === 0`) is replaced by
the extra query; otherwise `{$and: [baseQuery, extraQuery]}`. -/
def combineQuery (baseQuery : MQuery) (extraQuery : Option MQuery) : MQuery :=
  match extraQuery with
  | none => baseQuery
  | some extra => if baseQuery = .trueQ then extra else .andQ baseQuery extra

/-- A sort specification: ordered `(field, direction)` pairs, direction `1`
ascending / `-1` descending, as passed to `.sort(...)`. -/
def SortSpec : Type := List (MField × Int)

/-- Model of `buildSort` (product.controller.js lines 80–93): single-key sort per sort
key, `{createdAt: -1}` by default. -/
def buildSort (sortKey : Option String) : SortSpec :=
  if sortKey = some "price_asc" then [(.price, 1)]
  else if sortKey = some "price_desc" then [(.price, -1)]
  else if sortKey = some "rating_desc" then [(.rating, -1)]
  else if sortKey = some "oldest" then [(.createdAt, 1)]
  else [(.createdAt, -1)]

/-- The cursor-mode sort spec (product.controller.js line 253):
`{createdAt: 1, _id: 1}` for `oldest`, `{createdAt: -1, _id: -1}` otherwise. -/
def cursorSortSpec (sortKey : Option String) : SortSpec :=
  if sortKey = some "oldest" then [(.createdAt, 1), (.id, 1)]
  else [(.createdAt, -1), (.id, -1)]

/-- Whether a sort spec ends with `id` appended directly after `createdAt`
with the same direction — the §4.4 determinism requirement on sort specs. -/
def appendsIdB (spec : SortSpec) : Bool :=
  match spec.reverse with
  | (f2, d2) :: (f1, d1) :: _ =>
    decide (f2 = MField.id) && decide (f1 = MField.createdAt) && decide (d1 = d2)
  | _ => false

/-- Comparison of two documents at one field. -/
def fieldCmp (f : MField) (a b : Rec) : Ordering :=
  match f with
  | .createdAt => compare (dcode a.createdAt) (dcode b.createdAt)
  | .id => compare (hexVal a.id) (hexVal b.id)
  | .price => compare a.price b.price
  | .rating => compare a.rating b.rating

/-- Lexicographic comparison of two documents under a sort spec (negative
direction flips the comparison). -/
def specCmp : SortSpec → Rec → Rec → Ordering
  | [], _, _ => .eq
  | (f, d) :: rest, a, b =>
    match (if 0 ≤ d then fieldCmp f a b else fieldCmp f b a) with
    | .eq => specCmp rest a b
    | o => o

/-- The (total pre)order a sort spec induces; `find(...).sort(spec)` returns
its input ordered by this relation. -/
def specLe (spec : SortSpec) (a b : Rec) : Prop := specCmp spec a b ≠ .gt

instance (spec : SortSpec) : DecidableRel (specLe spec) := fun a b => by
  unfold specLe; infer_instance

/-- Model of `Model.find(query).sort(spec).skip(skip).limit(limit).lean()`
over a stored collection `ds`: filter, sort (some order consistent with
`spec`; modelled by insertion sort), drop `skip`, take `limit`. -/
def findM (ds : List Rec) (q : MQuery) (spec : SortSpec) (skip limit : Nat) : List Rec :=
  ((List.insertionSort (specLe spec) (ds.filter (evalQ q))).drop skip).take limit

/-- Model of `Model.countDocuments(query)`. -/
def countM (ds : List Rec) (q : MQuery) : Nat := (ds.filter (evalQ q)).length

/-- Model of `parsePagination` (product.controller.js lines 20–24) on already-parsed
integer query values (`none` models a missing or non-numeric parameter, for
which `parseInt` gives `NaN` and `||` substitutes the default; `0` is falsy in
JavaScript, hence also replaced by the default):
`page ≥ 1`, `1 ≤ limit ≤ 100`, defaults 1 and 10. -/
def parsePagination (page limit : Option Int) : Nat × Nat :=
  let p : Int := match page with | none => 1 | some v => if v = 0 then 1 else v
  let l : Int := match limit with | none => 10 | some v => if v = 0 then 10 else v
  ((max p 1).toNat, (min (max l 1) 100).toNat)

/-- The cursor-mode pagination block of a list response. -/
structure CursorPageInfo where
  products : List Rec
  limit : Nat
  nextCursor : Option String
  hasNextPage : Bool
deriving DecidableEq, Repr

/-- The offset-mode pagination block of a list response. -/
structure OffsetPageInfo where
  products : List Rec
  total : Nat
  page : Nat
  limit : Nat
  totalPages : Nat
deriving DecidableEq, Repr

/-- A successful list response: one of the two pagination modes. -/
inductive ListResult
  | cursorRes (p : CursorPageInfo)
  | offsetRes (p : OffsetPageInfo)
deriving DecidableEq, Repr

/-- The truthiness test `sortKey && sortKey !== 'oldest'` guarding cursor mode
(product.controller.js lines 247–249; the identical guard is at
cart.controller.js lines 155–157): a supplied, non-empty sort key other than
`'oldest'`. -/
def sortKeyTruthyNotOldest (sortKey : Option String) : Bool :=
  match sortKey with
  | none => false
  | some s => !decide (s = "") && !decide (s = "oldest")

/-- Model of `listProducts` (product.controller.js lines 205–311), restricted to the
paginated-lister core: the base query is taken as an argument (the
category/price/rating/search parsing that builds it is peripheral).  Cursor
mode is selected by the presence of the `cursor` query value; the sort-key
guard, cursor decoding, keyset filtering, `limit + 1` fetch, sentinel pop and
next-cursor derivation follow lines 246–280; offset mode follows lines
283–310 (`Math.ceil(total / limit)` modelled by ceiling division). -/
def listProductsM (ds : List Rec) (baseQuery : MQuery) (sortKey : Option String)
    (cursorValue : Option String) (page limit : Option Int) : Except ApiErr ListResult :=
  let pl := parsePagination page limit
  let pageNumber := pl.1
  let limitNumber := pl.2
  match cursorValue with
  | some cv =>
    if sortKeyTruthyNotOldest sortKey then .error cursorSortErr
    else
      match decodeCursor cv with
      | .error e => .error e
      | .ok cursor =>
        let cursorFilter := buildCursorFilter cursor sortKey
        let finalQuery := combineQuery baseQuery (some cursorFilter)
        let fetched := findM ds finalQuery (cursorSortSpec sortKey) 0 (limitNumber + 1)
        let hasNextPage := decide (limitNumber < fetched.length)
        let products := if hasNextPage then fetched.dropLast else fetched
        let nextCursor := if hasNextPage then products.getLast?.map encodeCursor else none
        .ok (.cursorRes ⟨products, limitNumber, nextCursor, hasNextPage⟩)
  | none =>
    let total := countM ds baseQuery
    .ok (.offsetRes
      ⟨findM ds baseQuery (buildSort sortKey) ((pageNumber - 1) * limitNumber) limitNumber,
        total, pageNumber, limitNumber, (total + limitNumber - 1) / limitNumber⟩)

/-- The items of a list response (empty on error), as a walking client
collects them. -/
def productsOf (r : Except ApiErr ListResult) : List Rec :=
  match r with
  | .ok (.cursorRes p) => p.products
  | .ok (.offsetRes p) => p.products
  | .error _ => []

/-- The `totalPages` a client reads off an offset-mode response (0 when the
response has no such field). -/
def totalPagesOf (r : Except ApiErr ListResult) : Nat :=
  match r with
  | .ok (.offsetRes p) => p.totalPages
  | _ => 0

/-- Offset-mode walk: request page 1 with no cursor and no sort key
(`newest` default), read `totalPages`, then concatenate the items of pages
`1, 2, …, totalPages`. -/
def offsetWalk (ds : List Rec) (L : Nat) : List Rec :=
  let n := totalPagesOf (listProductsM ds .trueQ none none (some 1) (some (L : Int)))
  ((List.range n).map fun (i : Nat) =>
    productsOf (listProductsM ds .trueQ none none (some ((i : Int) + 1)) (some (L : Int)))).flatten

/-- Cursor-mode walk from a given cursor value: request with the cursor, keep
the items, and continue with `nextCursor` while the response carries
`hasNextPage` (a missing field — as in an offset-mode response — is falsy and
stops the walk).  `fuel` bounds the number of requests. -/
def cursorWalkFrom (ds : List Rec) (L : Nat) : Nat → Option String → List Rec
  | 0, _ => []
  | fuel + 1, cv =>
    match listProductsM ds .trueQ none cv none (some (L : Int)) with
    | .ok (.cursorRes p) =>
      if p.hasNextPage then
        match p.nextCursor with
        | some nc => p.products ++ cursorWalkFrom ds L fuel (some nc)
        | none => p.products
      else p.products
    | .ok (.offsetRes p) => p.products
    | .error _ => []

/-- The walk the §8 equivalence property describes: start without a cursor and
follow `nextCursor` until `hasNextPage` is false. -/
def cursorWalk (ds : List Rec) (L : Nat) : List Rec :=
  cursorWalkFrom ds L (ds.length + 1) none

/-- A category document's adjacency data: `_id` and `parentCategoryId`
(`src/backend/model` category schema). -/
structure CatNode where
  id : String
  parentCategoryId : Option String
deriving DecidableEq, Repr

/-- Model of `Category.find({parentCategoryId: {$in: queue}}, '_id')`: the ids of all
stored categories whose parent is in the frontier. -/
def childrenOf (cats : List CatNode) (queue : List String) : List String :=
  (cats.filter fun c =>
    match c.parentCategoryId with
    | some p => decide (p ∈ queue)
    | none => false).map (·.id)

/-- The loop-break test `maxDepth && depth >= maxDepth`
(product.controller.js line 149): `maxDepth` truthy (supplied and nonzero)
and the depth reached. -/
def depthLimitHit (maxDepth : Option Nat) (depth : Nat) : Bool :=
  match maxDepth with
  | none => false
  | some n => !decide (n = 0) && decide (n ≤ depth)

/-- The `while` loop of `getDescendantCategoryIds` (product.controller.js
lines 148–161), with explicit `fuel` bounding the number of frontier
expansions; `none` models the loop still running when the fuel is spent
(the JavaScript loop has no such bound and can diverge on a cyclic parent
graph when `maxDepth` is absent). -/
def descLoop (cats : List CatNode) (maxDepth : Option Nat) :
    Nat → List String → List String → Nat → Option (List String)
  | fuel, ids, queue, depth =>
    if queue.isEmpty then some ids
    else if depthLimitHit maxDepth depth then some ids
    else
      match fuel with
      | 0 => none
      | fuel + 1 =>
        let children := childrenOf cats queue
        if children.isEmpty then some ids
        else descLoop cats maxDepth fuel (ids ++ children) children (depth + 1)

/-- Model of `getDescendantCategoryIds` (product.controller.js lines 141–164):
breadth-first frontier expansion from `ancestorId`, collecting all found ids,
optionally seeded with the ancestor itself. -/
def getDescendantCategoryIds (cats : List CatNode) (ancestorId : String)
    (maxDepth : Option Nat) (includeSelf : Bool) (fuel : Nat) : Option (List String) :=
  descLoop cats maxDepth fuel (if includeSelf then [ancestorId] else []) [ancestorId] 0

/-- A JavaScript value arriving as the `quantity` request-body field.
`num` carries a finite number; `nanV` stands for any value whose `Number(...)`
coercion is `NaN` (non-numeric strings, objects, `undefined` itself coerces to
`NaN` too) or a non-finite number. -/
inductive JSVal
  | undef
  | jnull
  | num (x : Rat)
  | nanV
deriving DecidableEq, Repr

/-- Model of the `Number(value)` coercion; `none` models `NaN` (and the non-finite values
rejected by `Number.isFinite`).  Note `Number(null) = 0`. -/
def jsToNumber : JSVal → Option Rat
  | .undef => none
  | .jnull => some 0
  | .num x => some x
  | .nanV => none

/-- Model of `normalizeQuantity` (cart.controller.js lines 9–13): coerce with
`Number`, return `null` (here `none`) unless finite, else `Math.floor`. -/
def normalizeQuantity (v : JSVal) : Option Int :=
  match jsToNumber v with
  | none => none
  | some q => some ⌊q⌋

/-- Outcome of the racing `CartProduct.create` call: success, duplicate-key
conflict (`error.code === 11000`), or any other storage failure. -/
inductive CreateOutcome
  | ok
  | dupKey
  | otherErr
deriving DecidableEq, Repr

/-- A successful add-to-cart reply: HTTP status and the quantity now stored. -/
structure AddReply where
  status : Nat
  quantity : Int
deriving DecidableEq, Repr

/-- Model of `addToCartItemController` (cart.controller.js lines 73–146) for one
`(userId, productId)` relation.  Store interactions are oracle arguments:
`productStock` is the product read (`none` = not found), `existing` the first
relation read, `createOutcome` what `CartProduct.create` does, and
`conflictRead` the re-read after a duplicate-key conflict (these model the
store's state under concurrent writers).  The result pairs the controller's
reply (or thrown `ApiError`) with the relation's quantity after the call —
unchanged by the controller itself on every error path. -/
def addToCartItemController (productIdValid : Bool) (qty : JSVal)
    (productStock : Option Int) (existing : Option Int)
    (createOutcome : CreateOutcome) (conflictRead : Option Int) :
    Except ApiErr AddReply × Option Int :=
  let n := (normalizeQuantity qty).getD 1
  if !productIdValid then (.error ⟨400, "Invalid product id"⟩, existing)
  else if n < 1 then (.error ⟨400, "Quantity must be at least 1"⟩, existing)
  else
    match productStock with
    | none => (.error ⟨404, "Product not found"⟩, existing)
    | some stock =>
      match existing with
      | some q =>
        let updated := q + n
        if stock < updated then (.error capacityErr, some q)
        else (.ok ⟨200, updated⟩, some updated)
      | none =>
        if stock < n then (.error capacityErr, none)
        else
          match createOutcome with
          | .ok => (.ok ⟨201, n⟩, some n)
          | .otherErr => (.error ⟨500, "Failed to add item to cart"⟩, none)
          | .dupKey =>
            match conflictRead with
            | none => (.error ⟨409, "Cart item already exists"⟩, none)
            | some q =>
              let updated := q + n
              if stock < updated then (.error capacityErr, some q)
              else (.ok ⟨200, updated⟩, some updated)

/-! ## Concrete fixtures used by witnesses and counterexamples -/

/-- A concrete valid instant. -/
def sampleDate : DateRec := ⟨2024, 1, 2, 3, 4, 5, 6⟩

/-- A concrete syntactically valid ObjectId string. -/
def sampleId : String := "65a9e1c4f0a1b2c3d4e5f601"

/-- A concrete stored document. -/
def sampleRec : Rec := ⟨sampleId, sampleDate, 10, 4⟩

/-- The §8 example category store: parent chain `A -> B -> C -> D`. -/
def chainCats : List CatNode :=
  [⟨"B", some "A"⟩, ⟨"C", some "B"⟩, ⟨"D", some "C"⟩, ⟨"A", none⟩]

/-- A self-referencing (cyclic) category store. -/
def cyclicCats : List CatNode := [⟨"X", some "X"⟩]

/-- Document `a` is strictly newer than `b` (later time value).  A list page sequence
in `newest` order is `Pairwise strictNewer`. -/
def strictNewer (a b : Rec) : Prop := dcode b.createdAt < dcode a.createdAt

instance : DecidableRel strictNewer := fun a b => by unfold strictNewer; infer_instance

/-- The dataset in the canonical `newest` order (descending `(createdAt, id)`),
the order both walks traverse. -/
def sortedNewest (ds : List Rec) : List Rec :=
  List.insertionSort (specLe (cursorSortSpec none)) ds

/-- Three documents with pairwise-distinct creation instants. -/
def recA : Rec := ⟨"65a9e1c4f0a1b2c3d4e5f6a1", ⟨2024, 3, 1, 0, 0, 0, 0⟩, 5, 1⟩

def recB : Rec := ⟨"65a9e1c4f0a1b2c3d4e5f6b2", ⟨2024, 3, 2, 0, 0, 0, 0⟩, 6, 2⟩

def recC : Rec := ⟨"65a9e1c4f0a1b2c3d4e5f6c3", ⟨2024, 3, 3, 0, 0, 0, 0⟩, 7, 3⟩

/-- A document strictly newer than `recA`, `recB`, `recC` — a cursor encoding
its `(createdAt, id)` sits before the whole dataset. -/
def recTop : Rec := ⟨"65a9e1c4f0a1b2c3d4e5f6d4", ⟨2024, 3, 4, 0, 0, 0, 0⟩, 8, 4⟩

/-- A concrete stored dataset (unsorted). -/
def sampleDataset : List Rec := [recB, recC, recA]

/-! ## Lemmas: cursor codec round trip -/

theorem digitVal_digitChar {n : Nat} (h : n < 10) : digitVal (digitChar n) = some n := by
  interval_cases n <;> decide

theorem parse2_pad {n : Nat} (h : n < 100) :
    parse2 (digitChar (n / 10)) (digitChar (n % 10)) = some n := by
  rw [parse2, digitVal_digitChar (by omega), digitVal_digitChar (by omega)]
  simp only [Option.bind_eq_bind, Option.some_bind, Option.pure_def]
  congr 1
  omega

theorem parse3_pad {n : Nat} (h : n < 1000) :
    parse3 (digitChar (n / 100)) (digitChar (n / 10 % 10)) (digitChar (n % 10)) = some n := by
  rw [parse3, digitVal_digitChar (by omega), digitVal_digitChar (by omega),
    digitVal_digitChar (by omega)]
  simp only [Option.bind_eq_bind, Option.some_bind, Option.pure_def]
  congr 1
  omega

theorem parse4_pad {n : Nat} (h : n < 10000) :
    parse4 (digitChar (n / 1000)) (digitChar (n / 100 % 10)) (digitChar (n / 10 % 10))
      (digitChar (n % 10)) = some n := by
  rw [parse4, digitVal_digitChar (by omega), digitVal_digitChar (by omega),
    digitVal_digitChar (by omega), digitVal_digitChar (by omega)]
  simp only [Option.bind_eq_bind, Option.some_bind, Option.pure_def]
  congr 1
  omega

theorem parseISODate_toISOString {d : DateRec} (h : d.Valid) :
    parseISODate (toISOString d) = some d := by
  obtain ⟨h1, h2, h3, h4, h5, h6, h7, h8, h9⟩ := h
  unfold toISOString parseISODate pad4 pad3 pad2
  simp only [List.cons_append, List.nil_append, String.mk]
  rw [if_pos (by simp), parse4_pad (by omega), parse2_pad (by omega), parse2_pad (by omega),
    parse2_pad (by omega), parse2_pad (by omega), parse2_pad (by omega), parse3_pad (by omega)]
  simp only []
  rw [if_pos (by omega)]

theorem dropLit_append (p rest : List Char) : dropLit p (p ++ rest) = some rest := by
  induction p with
  | nil => rfl
  | cons c cs ih => simp [dropLit, ih]

theorem scanJsonStr_append (a rest : List Char) (h : ∀ c ∈ a, jsonSafeChar c = true) :
    scanJsonStr (a ++ '"' :: rest) = some (a, rest) := by
  induction a with
  | nil => simp [scanJsonStr]
  | cons c cs ih =>
    have hc := h c (by simp)
    have h1 : ¬(c = '"') := by
      intro hh; rw [hh] at hc; simp [jsonSafeChar] at hc
    have h2 : ¬(c = '\\') := by
      intro hh; rw [hh] at hc; simp [jsonSafeChar] at hc
    simp only [List.cons_append, scanJsonStr, if_neg h1, if_neg h2, List.append_eq]
    rw [ih (fun x hx => h x (by simp [hx]))]
    rfl

theorem parseCursorPayload_mk (a b : String)
    (ha : ∀ c ∈ a.data, jsonSafeChar c = true) (hb : ∀ c ∈ b.data, jsonSafeChar c = true) :
    parseCursorPayload (mkCursorPayload a b) = some (a, b) := by
  have hdata : (mkCursorPayload a b).data =
      "\x7b\"createdAt\":\"".data ++ (a.data ++ '"' :: (",\"id\":\"".data ++
        (b.data ++ '"' :: ("\x7d".data ++ [])))) := by
    simp [mkCursorPayload, String.data_append]
  unfold parseCursorPayload
  rw [hdata, dropLit_append]
  simp only [Option.bind_eq_bind, Option.some_bind]
  rw [scanJsonStr_append _ _ ha]
  simp only [Option.some_bind]
  rw [dropLit_append]
  simp only [Option.some_bind]
  rw [scanJsonStr_append _ _ hb]
  simp only [Option.some_bind]
  rw [dropLit_append]
  simp only [Option.some_bind]
  rw [if_pos trivial]
  show some (String.mk a.data, String.mk b.data) = some (a, b)
  cases a; cases b; rfl

theorem b64val_b64char : ∀ n < 64, b64val (b64char n) = some n := by decide

theorem b64char_ne_pad : ∀ n < 64, ¬(b64char n = '=') := by decide

theorem b64decode_encode :
    ∀ bs : List Nat, (∀ x ∈ bs, x < 256) → b64decodeBytes (b64encodeBytes bs) = some bs
  | [] => fun _ => rfl
  | [a] => fun h => by
    have ha : a < 256 := h a (by simp)
    show b64decodeBytes [b64char (a / 4), b64char (a % 4 * 16), '=', '='] = some [a]
    rw [b64decodeBytes, b64val_b64char _ (by omega), b64val_b64char _ (by omega)]
    simp only [Option.some.injEq, List.cons.injEq, and_true, reduceIte]
    omega
  | [a, b] => fun h => by
    have ha : a < 256 := h a (by simp)
    have hb : b < 256 := h b (by simp)
    show b64decodeBytes [b64char (a / 4), b64char (a % 4 * 16 + b / 16),
      b64char (b % 16 * 4), '='] = some [a, b]
    rw [b64decodeBytes, b64val_b64char _ (by omega), b64val_b64char _ (by omega)]
    simp only []
    rw [if_neg (by rintro ⟨h1, -⟩; exact b64char_ne_pad _ (by omega) h1)]
    rw [b64val_b64char _ (by omega)]
    simp only [Option.some.injEq, List.cons.injEq, and_true, reduceIte]
    constructor <;> omega
  | a :: b :: c :: rest => fun h => by
    have ha : a < 256 := h a (by simp)
    have hb : b < 256 := h b (by simp)
    have hc : c < 256 := h c (by simp)
    have ih := b64decode_encode rest (fun x hx => h x (by simp [hx]))
    show b64decodeBytes (b64char (a / 4) :: b64char (a % 4 * 16 + b / 16) ::
      b64char (b % 16 * 4 + c / 64) :: b64char (c % 64) :: b64encodeBytes rest) =
      some (a :: b :: c :: rest)
    rw [b64decodeBytes, b64val_b64char _ (by omega), b64val_b64char _ (by omega)]
    simp only []
    rw [if_neg (by rintro ⟨h1, -⟩; exact b64char_ne_pad _ (by omega) h1)]
    rw [b64val_b64char _ (by omega)]
    simp only []
    rw [if_neg (by rintro ⟨h1, -⟩; exact b64char_ne_pad _ (by omega) h1)]
    rw [b64val_b64char _ (by omega), ih]
    simp only [Option.some.injEq, List.cons.injEq, and_true]
    exact ⟨by omega, by omega, by omega⟩

theorem digitChar_safe (n : Nat) :
    jsonSafeChar (digitChar n) = true ∧ (digitChar n).toNat < 128 := by
  unfold digitChar
  split <;> decide

theorem toISOString_data (d : DateRec) :
    (toISOString d).data = pad4 d.year ++ '-' :: pad2 d.month ++ '-' :: pad2 d.day ++
      'T' :: pad2 d.hour ++ ':' :: pad2 d.minute ++ ':' :: pad2 d.second ++
      '.' :: pad3 d.ms ++ ['Z'] := rfl

theorem toISOString_chars (d : DateRec) :
    ∀ c ∈ (toISOString d).data, jsonSafeChar c = true ∧ c.toNat < 128 := by
  intro c hc
  rw [toISOString_data] at hc
  simp only [pad4, pad3, pad2, List.cons_append, List.nil_append] at hc
  simp only [List.mem_cons, List.not_mem_nil, or_false] at hc
  rcases hc with rfl|rfl|rfl|rfl|rfl|rfl|rfl|rfl|rfl|rfl|rfl|rfl|rfl|rfl|rfl|rfl|rfl|rfl|rfl|rfl|rfl|rfl|rfl|rfl <;>
    first
      | exact digitChar_safe _
      | decide

theorem hexChar_props {c : Char} (h : isHexDigit c = true) :
    jsonSafeChar c = true ∧ c.toNat < 128 := by
  unfold isHexDigit at h
  split at h
  case isTrue hcond =>
    refine ⟨?_, by omega⟩
    have h1 : ¬(c = '"') := by rintro rfl; revert hcond; decide
    have h2 : ¬(c = '\\') := by rintro rfl; revert hcond; decide
    simp [jsonSafeChar, h1, h2]
  case isFalse => exact absurd h (by simp)

theorem bytesToStr_strToBytes {s : String} (h : ∀ c ∈ s.data, c.toNat < 128) :
    bytesToStr (strToBytes s) = some s := by
  unfold bytesToStr strToBytes
  rw [if_pos]
  · congr 1
    apply String.ext
    show (s.data.map Char.toNat).map Char.ofNat = s.data
    rw [List.map_map]
    conv_rhs => rw [show s.data = s.data.map id from (List.map_id _).symm]
    exact List.map_congr_left fun c _ => Char.ofNat_toNat c
  · rw [List.all_eq_true]
    intro x hx
    rw [List.mem_map] at hx
    obtain ⟨c, hc, rfl⟩ := hx
    simpa using h c hc

theorem b64decodeStr_encodeStr {s : String} (h : ∀ c ∈ s.data, c.toNat < 128) :
    b64decodeStr (b64encodeStr s) = some s := by
  unfold b64decodeStr b64encodeStr
  rw [show (String.mk (b64encodeBytes (strToBytes s))).data = b64encodeBytes (strToBytes s) from rfl]
  rw [b64decode_encode]
  · exact bytesToStr_strToBytes h
  · intro x hx
    unfold strToBytes at hx
    rw [List.mem_map] at hx
    obtain ⟨c, hc, rfl⟩ := hx
    have := h c hc
    omega

theorem toISOString_ne_empty (d : DateRec) : ¬(toISOString d = "") := by
  intro hh
  have := congrArg String.data hh
  rw [toISOString_data] at this
  simp [pad4] at this

theorem isValidObjectId_ne_empty {s : String} (h : isValidObjectId s = true) : ¬(s = "") := by
  rintro rfl
  exact absurd h (by decide)

theorem isValidObjectId_all_hex {i : String} (hi : isValidObjectId i = true) :
    ∀ c ∈ i.data, isHexDigit c = true := by
  have hall : i.data.all isHexDigit = true := by
    unfold isValidObjectId at hi
    exact (Bool.and_eq_true _ _ |>.mp hi).2
  exact (List.all_eq_true).mp hall

theorem mkPayload_ascii {d : DateRec} {i : String} (hi : isValidObjectId i = true) :
    ∀ c ∈ (mkCursorPayload (toISOString d) i).data, c.toNat < 128 := by
  intro c hc
  simp only [mkCursorPayload, String.data_append, List.mem_append] at hc
  rcases hc with ((((hc | hc) | hc) | hc) | hc)
  · fin_cases hc <;> decide
  · exact (toISOString_chars d c hc).2
  · fin_cases hc <;> decide
  · exact (hexChar_props (isValidObjectId_all_hex hi c hc)).2
  · fin_cases hc <;> decide

/-- The codec round trip: decoding an encoded cursor recovers the document's
`(createdAt, id)` pair, for every valid instant and syntactically valid
identifier. -/
theorem decodeCursor_encodeCursor {r : Rec} (hd : r.createdAt.Valid)
    (hi : isValidObjectId r.id = true) :
    decodeCursor (encodeCursor r) = .ok ⟨r.createdAt, r.id⟩ := by
  unfold encodeCursor decodeCursor
  rw [b64decodeStr_encodeStr (mkPayload_ascii hi)]
  simp only []
  rw [parseCursorPayload_mk _ _ (fun c hc => (toISOString_chars _ c hc).1)
    (fun c hc => (hexChar_props (isValidObjectId_all_hex hi c hc)).1)]
  simp only []
  rw [if_neg (by
    rintro (hcE | hiE)
    · exact toISOString_ne_empty _ hcE
    · exact isValidObjectId_ne_empty hi hiE)]
  rw [parseISODate_toISOString hd]
  simp only []
  rw [if_pos hi]

/-! ## Claim C5 -/

/-- C5: for every valid pair `(createdAt, id)` — a valid instant and a
syntactically valid store identifier — decoding the encoded cursor returns
exactly the original pair: `decode(encode(createdAt, id)) = (createdAt, id)`. -/
theorem claim5_roundtrip (r : Rec) (hd : r.createdAt.Valid)
    (hi : isValidObjectId r.id = true) :
    decodeCursor (encodeCursor r) = .ok ⟨r.createdAt, r.id⟩ :=
  decodeCursor_encodeCursor hd hi

/-- Witness for C5 at the concrete fixture document. -/
theorem claim5_roundtrip_witness :
    DateRec.Valid sampleDate ∧ isValidObjectId sampleId = true ∧
      decodeCursor (encodeCursor sampleRec) = .ok ⟨sampleDate, sampleId⟩ :=
  ⟨by decide, by decide, claim5_roundtrip sampleRec (by decide) (by decide)⟩

/-! ## Claim C6 -/

/-- C6: `decodeCursor` is total with typed failures: every input either
decodes to a cursor or fails with exactly the `Invalid cursor` error — never
any other error and never a crash; in particular non-base64 garbage, a
well-formed token with an unparseable timestamp, and a well-formed token with
a non-hex identifier all yield the `Invalid cursor` error. -/
theorem claim6_invalid_cursor :
    (∀ s : String, decodeCursor s = .error invalidCursorErr ∨ ∃ c, decodeCursor s = .ok c) ∧
      decodeCursor "%%%" = .error invalidCursorErr ∧
      decodeCursor (b64encodeStr
        (mkCursorPayload "2024-99-01T00:00:00.000Z" "aaaaaaaaaaaaaaaaaaaaaaaa")) =
        .error invalidCursorErr ∧
      decodeCursor (b64encodeStr
        (mkCursorPayload "2024-01-01T00:00:00.000Z" "zzzzzzzzzzzzzzzzzzzzzzzz")) =
        .error invalidCursorErr := by
  refine ⟨?_, by decide, by decide, by decide⟩
  intro s
  unfold decodeCursor
  rcases b64decodeStr s with _ | json
  · exact Or.inl rfl
  · simp only []
    rcases parseCursorPayload json with _ | ⟨c, i⟩
    · exact Or.inl rfl
    · simp only []
      by_cases hci : c = "" ∨ i = ""
      · rw [if_pos hci]; exact Or.inl rfl
      · rw [if_neg hci]
        rcases parseISODate c with _ | t
        · exact Or.inl rfl
        · simp only []
          by_cases hv : isValidObjectId i = true
          · rw [if_pos hv]; exact Or.inr ⟨_, rfl⟩
          · rw [if_neg hv]; exact Or.inl rfl

/-! ## Lemmas: query composition -/

theorem evalQ_combine (base f : MQuery) (r : Rec) :
    evalQ (combineQuery base (some f)) r = (evalQ base r && evalQ f r) := by
  unfold combineQuery
  by_cases hb : base = .trueQ
  · subst hb; simp [evalQ]
  · simp only []
    rw [if_neg hb]
    rfl

theorem evalQ_keyset_newest (cursor : Cursor) (sortKey : Option String) (r : Rec)
    (h : ¬(sortKey = some "oldest")) :
    (evalQ (buildCursorFilter cursor sortKey) r = true ↔
      dcode r.createdAt < dcode cursor.createdAt ∨
        (dcode r.createdAt = dcode cursor.createdAt ∧ hexVal r.id < hexVal cursor.id)) := by
  unfold buildCursorFilter
  rw [if_neg h]
  simp [evalQ, fieldVal, mvalLt, mvalEqB]

theorem evalQ_keyset_oldest (cursor : Cursor) (r : Rec) :
    (evalQ (buildCursorFilter cursor (some "oldest")) r = true ↔
      dcode cursor.createdAt < dcode r.createdAt ∨
        (dcode r.createdAt = dcode cursor.createdAt ∧ hexVal cursor.id < hexVal r.id)) := by
  unfold buildCursorFilter
  rw [if_pos rfl]
  simp [evalQ, fieldVal, mvalLt, mvalEqB]

/-! ## Claim C7 -/

/-- C7: for every decoded cursor, base predicate, sort key and record, the
composed filter holds exactly when the base predicate holds AND the keyset
condition holds — `(createdAt < c.createdAt) ∨ (createdAt = c.createdAt ∧
id < c.id)` in the descending (`newest`) direction, the mirrored `>` form for
`oldest` — so the base predicate is always preserved (dates compared by time
value, ids bytewise). -/
theorem claim7_keyset_filter (cursor : Cursor) (base : MQuery) (sortKey : Option String)
    (r : Rec) :
    (¬(sortKey = some "oldest") →
      (evalQ (combineQuery base (some (buildCursorFilter cursor sortKey))) r = true ↔
        evalQ base r = true ∧
          (dcode r.createdAt < dcode cursor.createdAt ∨
            (dcode r.createdAt = dcode cursor.createdAt ∧
              hexVal r.id < hexVal cursor.id)))) ∧
    (sortKey = some "oldest" →
      (evalQ (combineQuery base (some (buildCursorFilter cursor sortKey))) r = true ↔
        evalQ base r = true ∧
          (dcode cursor.createdAt < dcode r.createdAt ∨
            (dcode r.createdAt = dcode cursor.createdAt ∧
              hexVal cursor.id < hexVal r.id)))) := by
  constructor
  · intro h
    rw [evalQ_combine, Bool.and_eq_true, evalQ_keyset_newest cursor sortKey r h]
  · rintro rfl
    rw [evalQ_combine, Bool.and_eq_true, evalQ_keyset_oldest cursor r]

/-- Witness for C7 at a concrete cursor, base and record, in both
directions. -/
theorem claim7_keyset_filter_witness :
    ((evalQ (combineQuery .trueQ
        (some (buildCursorFilter ⟨sampleDate, sampleId⟩ none))) sampleRec = true ↔
      evalQ .trueQ sampleRec = true ∧
        (dcode sampleRec.createdAt < dcode sampleDate ∨
          (dcode sampleRec.createdAt = dcode sampleDate ∧
            hexVal sampleRec.id < hexVal sampleId)))) ∧
    ((evalQ (combineQuery .trueQ
        (some (buildCursorFilter ⟨sampleDate, sampleId⟩ (some "oldest")))) sampleRec = true ↔
      evalQ .trueQ sampleRec = true ∧
        (dcode sampleDate < dcode sampleRec.createdAt ∨
          (dcode sampleRec.createdAt = dcode sampleDate ∧
            hexVal sampleId < hexVal sampleRec.id)))) :=
  ⟨(claim7_keyset_filter ⟨sampleDate, sampleId⟩ .trueQ none sampleRec).1 (by decide),
    (claim7_keyset_filter ⟨sampleDate, sampleId⟩ .trueQ (some "oldest") sampleRec).2 rfl⟩

/-! ## Claim C2 -/

/-- C2 counterexample: in offset mode the sort specification sent to the
store is `buildSort(sortKey)`, and for the default (`newest`) sort key it is
the single-key spec `{createdAt: -1}` — no `id` tie-break key is appended, so
the claim "in both modes the sort spec appends the id after createdAt" fails
on the offset mode. -/
theorem claim2_counterexample :
    buildSort none = [(MField.createdAt, -1)] ∧ appendsIdB (buildSort none) = false := by
  constructor <;> rfl

/-- C2 amended: only the cursor-mode sort spec appends `id` directly after
`createdAt` (with matching direction) — it does for every sort key; the
offset-mode spec `buildSort(sortKey)` never contains the tie-break key, for
any sort key. -/
theorem claim2_amended_sort_spec :
    (∀ sortKey, appendsIdB (cursorSortSpec sortKey) = true) ∧
      (∀ sortKey, appendsIdB (buildSort sortKey) = false) := by
  refine ⟨fun sortKey => ?_, fun sortKey => ?_⟩
  · unfold cursorSortSpec
    split <;> rfl
  · unfold buildSort
    split
    · rfl
    · split
      · rfl
      · split
        · rfl
        · split
          · rfl
          · rfl

/-! ## Claim C1 -/

/-- C1 counterexample: requesting a cursor together with the explicit sort
key `'newest'` — which the claim places in the permitted set — raises the
`InvalidRequest` error (`sortKey && sortKey !== 'oldest'` is true for the
string `'newest'`).  The guard runs before cursor decoding, so any cursor
value exhibits it. -/
theorem claim1_counterexample :
    listProductsM [] .trueQ (some "newest") (some "x") none none = .error cursorSortErr := by
  decide

/-- C1 amended: cursor mode is permitted exactly when the supplied sort key
is absent, empty, or `'oldest'`: any other supplied sort key (including the
literal `'newest'`) raises `InvalidRequest`; with a permitted sort key and a
well-formed cursor the request succeeds. -/
theorem claim1_cursor_sort_guard (ds : List Rec) (base : MQuery) (sortKey : Option String)
    (page limit : Option Int) :
    (∀ cv s, sortKey = some s → ¬(s = "") → ¬(s = "oldest") →
      listProductsM ds base sortKey (some cv) page limit = .error cursorSortErr) ∧
    (∀ r : Rec, sortKeyTruthyNotOldest sortKey = false → r.createdAt.Valid →
      isValidObjectId r.id = true →
      ∃ res, listProductsM ds base sortKey (some (encodeCursor r)) page limit = .ok res) := by
  constructor
  · intro cv s hsk h1 h2
    subst hsk
    have hg : sortKeyTruthyNotOldest (some s) = true := by
      simp [sortKeyTruthyNotOldest, h1, h2]
    unfold listProductsM
    simp [hg]
  · intro r h0 hd hi
    unfold listProductsM
    simp only [h0, Bool.false_eq_true, if_false, decodeCursor_encodeCursor hd hi]
    exact ⟨_, rfl⟩

/-- Witness for C1: the explicit `'price_asc'` sort key with a cursor fails
with `InvalidRequest`; an absent sort key with a well-formed cursor
succeeds. -/
theorem claim1_cursor_sort_guard_witness :
    listProductsM [] .trueQ (some "price_asc") (some "x") none none = .error cursorSortErr ∧
      ∃ res, listProductsM [] .trueQ none (some (encodeCursor sampleRec)) none none = .ok res :=
  ⟨(claim1_cursor_sort_guard [] .trueQ (some "price_asc") none none).1 "x" "price_asc"
      rfl (by decide) (by decide),
    (claim1_cursor_sort_guard [] .trueQ none none none).2 sampleRec rfl (by decide) (by decide)⟩

/-! ## Lemmas: category tree resolver -/

theorem descLoop_some (cats : List CatNode) (n : Nat) (hn : 0 < n) :
    ∀ (fuel : Nat) (ids queue : List String) (depth : Nat), n ≤ depth + fuel →
      ¬(descLoop cats (some n) fuel ids queue depth = none) := by
  intro fuel
  induction fuel with
  | zero =>
    intro ids queue depth h2
    unfold descLoop
    by_cases hq : queue.isEmpty
    · simp [hq]
    · have hd : depthLimitHit (some n) depth = true := by
        simp only [depthLimitHit, Bool.and_eq_true, Bool.not_eq_true', decide_eq_false_iff_not,
          decide_eq_true_eq]
        omega
      simp [hq, hd]
  | succ fuel ih =>
    intro ids queue depth h2
    unfold descLoop
    by_cases hq : queue.isEmpty
    · simp [hq]
    · by_cases hd : depthLimitHit (some n) depth = true
      · simp [hq, hd]
      · by_cases hc : (childrenOf cats queue).isEmpty
        · simp [hq, hd, hc]
        · simp only [hq, hd, hc, Bool.false_eq_true, if_false]
          exact ih _ _ _ (by omega)

/-! ## Claim C9 -/

/-- C9: the resolver's frontier loop is bounded: when `maxDepth = n ≥ 1` is
supplied, `n` frontier expansions of fuel always suffice (the loop never runs
out, i.e. it terminates, on any category store, including cyclic or
self-referential parent graphs); on the chain `A -> B -> C -> D`,
`descendants(A, 2, includeSelf := false) = [B, C]`,
`descendants(A, null, includeSelf := true) = [A, B, C, D]`, and
`descendants(D, null, false)` is the empty set, not an error. -/
theorem claim9_descendants :
    (∀ (cats : List CatNode) (ids queue : List String) (depth n fuel : Nat),
      0 < n → n ≤ depth + fuel →
      ¬(descLoop cats (some n) fuel ids queue depth = none)) ∧
    getDescendantCategoryIds chainCats "A" (some 2) false 2 = some ["B", "C"] ∧
    getDescendantCategoryIds chainCats "A" none true 4 = some ["A", "B", "C", "D"] ∧
    getDescendantCategoryIds chainCats "D" none false 1 = some [] := by
  refine ⟨?_, by decide, by decide, by decide⟩
  intro cats ids queue depth n fuel h1 h2
  exact descLoop_some cats n h1 fuel ids queue depth h2

/-- Witness for C9's bounded-termination conjunct, on a self-referencing
category graph. -/
theorem claim9_descendants_witness :
    ¬(descLoop cyclicCats (some 3) 3 [] ["X"] 0 = none) :=
  claim9_descendants.1 cyclicCats [] ["X"] 0 3 3 (by decide) (by decide)

/-! ## Claim C10 -/

/-- C10: the requested quantity is normalized before any store access: a
finite numeric quantity is floored; a missing (`undefined`) or non-numeric
(`NaN`-coercing) quantity defaults to 1; and whenever the normalized quantity
is below 1 the controller rejects with the invalid-request error and the
stored relation is untouched — for every store state, so no product or cart
read influences the outcome. -/
theorem claim10_quantity_normalization :
    (∀ x : Rat, normalizeQuantity (.num x) = some ⌊x⌋) ∧
    (normalizeQuantity .undef).getD 1 = 1 ∧
    (normalizeQuantity .nanV).getD 1 = 1 ∧
    (∀ (qty : JSVal) (productStock existing : Option Int) (co : CreateOutcome)
        (conflictRead : Option Int), (normalizeQuantity qty).getD 1 < 1 →
      addToCartItemController true qty productStock existing co conflictRead =
        (.error ⟨400, "Quantity must be at least 1"⟩, existing)) := by
  refine ⟨fun x => rfl, rfl, rfl, ?_⟩
  intro qty ps ex co cr h
  unfold addToCartItemController
  simp [h]

/-- Witness for C10: quantity 7/2 floors to 3; a missing quantity defaults
to 1; quantity 0 is rejected without touching the stored relation. -/
theorem claim10_quantity_normalization_witness :
    normalizeQuantity (.num (7 / 2)) = some ⌊(7 : Rat) / 2⌋ ∧
      (normalizeQuantity .undef).getD 1 = 1 ∧
      addToCartItemController true (.num 0) (some 5) (some 2) .ok none =
        (.error ⟨400, "Quantity must be at least 1"⟩, some 2) :=
  ⟨claim10_quantity_normalization.1 (7 / 2), claim10_quantity_normalization.2.1,
    claim10_quantity_normalization.2.2.2 (.num 0) (some 5) (some 2) .ok none (by decide)⟩

/-! ## Claim C3 -/

/-- C3 counterexample: when the create reports a duplicate-key conflict and
the re-read then finds no record, the controller fails with the
409 duplicate/conflict error `'Cart item already exists'` — not with the
500 `InternalError` (`'Failed to add item to cart'`) the claim requires. -/
theorem claim3_counterexample :
    addToCartItemController true (.num 1) (some 10) none .dupKey none =
      (.error ⟨409, "Cart item already exists"⟩, none) ∧
    ¬((⟨409, "Cart item already exists"⟩ : ApiErr) =
      ⟨500, "Failed to add item to cart"⟩) := by
  constructor
  · decide
  · decide

/-- C3 amended: on a duplicate-key conflict the controller re-reads the
relation and retries exactly once as an increment (running the capacity check
before writing); if the second read finds no record it fails with the 409
duplicate/conflict error `'Cart item already exists'` — not with the 500
`InternalError` — and does not retry again. -/
theorem claim3_conflict_retry (qty : JSVal) (stock q : Int)
    (hn1 : 1 ≤ (normalizeQuantity qty).getD 1)
    (hns : (normalizeQuantity qty).getD 1 ≤ stock) :
    (addToCartItemController true qty (some stock) none .dupKey none =
      (.error ⟨409, "Cart item already exists"⟩, none)) ∧
    (q + (normalizeQuantity qty).getD 1 ≤ stock →
      addToCartItemController true qty (some stock) none .dupKey (some q) =
        (.ok ⟨200, q + (normalizeQuantity qty).getD 1⟩,
          some (q + (normalizeQuantity qty).getD 1))) ∧
    (stock < q + (normalizeQuantity qty).getD 1 →
      addToCartItemController true qty (some stock) none .dupKey (some q) =
        (.error capacityErr, some q)) := by
  refine ⟨?_, fun hq => ?_, fun hq => ?_⟩ <;>
    · unfold addToCartItemController
      simp only [Bool.not_true, Bool.false_eq_true, if_false]
      rw [if_neg (by omega), if_neg (by omega)]
      try rw [if_neg (by omega)]
      try rw [if_pos (by omega)]

/-- Witness for C3: concrete conflict retries — missing re-read gives the
409 error; a found re-read increments (5 + 2 = 7 ≤ 10) or, against stock 6,
fails the capacity check leaving the relation at 5. -/
theorem claim3_conflict_retry_witness :
    (addToCartItemController true (.num 2) (some 10) none .dupKey none =
      (.error ⟨409, "Cart item already exists"⟩, none)) ∧
    (addToCartItemController true (.num 2) (some 10) none .dupKey (some 5) =
      (.ok ⟨200, 5 + (normalizeQuantity (.num 2)).getD 1⟩,
        some (5 + (normalizeQuantity (.num 2)).getD 1))) ∧
    (addToCartItemController true (.num 2) (some 6) none .dupKey (some 5) =
      (.error capacityErr, some 5)) :=
  ⟨(claim3_conflict_retry (.num 2) 10 5 (by decide) (by decide)).1,
    (claim3_conflict_retry (.num 2) 10 5 (by decide) (by decide)).2.1 (by decide),
    (claim3_conflict_retry (.num 2) 6 5 (by decide) (by decide)).2.2 (by decide)⟩

/-! ## Claim C4 -/

/-- C4: with the capacity check `newQuantity > countInstock` against a
product with stock `stock`, no path persists a quantity exceeding `stock`
(assuming the pre-existing relation values are within stock): the
existing-item increment, the fresh create, and the post-conflict retry all
run the check before their write, and on a failed check the operation fails
with `CapacityExceeded` leaving the stored relation unchanged; on any error
the stored relation is exactly what the respective read saw. -/
theorem claim4_capacity (qty : JSVal) (stock : Int) (existing conflictRead : Option Int)
    (co : CreateOutcome)
    (hex : ∀ q, existing = some q → q ≤ stock)
    (hcr : ∀ q, conflictRead = some q → q ≤ stock) :
    (∀ q', (addToCartItemController true qty (some stock) existing co conflictRead).2 = some q' →
      q' ≤ stock) ∧
    (∀ e, (addToCartItemController true qty (some stock) existing co conflictRead).1 = .error e →
      (addToCartItemController true qty (some stock) existing co conflictRead).2 = existing ∨
        (addToCartItemController true qty (some stock) existing co conflictRead).2 = conflictRead) ∧
    (∀ q, existing = some q → 1 ≤ (normalizeQuantity qty).getD 1 →
      stock < q + (normalizeQuantity qty).getD 1 →
      addToCartItemController true qty (some stock) existing co conflictRead =
        (.error capacityErr, some q)) ∧
    (existing = none → 1 ≤ (normalizeQuantity qty).getD 1 →
      stock < (normalizeQuantity qty).getD 1 →
      addToCartItemController true qty (some stock) existing co conflictRead =
        (.error capacityErr, none)) ∧
    (∀ q, existing = none → co = .dupKey → conflictRead = some q →
      1 ≤ (normalizeQuantity qty).getD 1 → (normalizeQuantity qty).getD 1 ≤ stock →
      stock < q + (normalizeQuantity qty).getD 1 →
      addToCartItemController true qty (some stock) existing co conflictRead =
        (.error capacityErr, some q)) := by
  unfold addToCartItemController
  simp only [Bool.not_true, Bool.false_eq_true, if_false]
  by_cases hn1 : (normalizeQuantity qty).getD 1 < 1
  · rw [if_pos hn1]
    refine ⟨?_, ?_, ?_, ?_, ?_⟩
    · intro q' hq'
      exact hex q' hq'
    · intro e _
      exact Or.inl rfl
    · intro q _ h1 _
      omega
    · intro _ h1 _
      omega
    · intro q _ _ _ h1 _
      omega
  · rw [if_neg hn1]
    rcases existing with _ | q0
    · rcases co with _ | _ | _
      · -- create succeeds
        simp only []
        by_cases hcap : stock < (normalizeQuantity qty).getD 1
        · rw [if_pos hcap]
          exact ⟨fun q' hq' => by simp at hq', fun e _ => Or.inl rfl,
            fun q hq => by simp at hq, fun _ _ _ => rfl,
            fun q _ hco => by simp at hco⟩
        · rw [if_neg hcap]
          exact ⟨fun q' hq' => by simp at hq' ⊢; omega, fun e he => by simp at he,
            fun q hq => by simp at hq, fun _ _ h => absurd h hcap,
            fun q _ hco => by simp at hco⟩
      · -- duplicate-key conflict
        simp only []
        by_cases hcap : stock < (normalizeQuantity qty).getD 1
        · rw [if_pos hcap]
          exact ⟨fun q' hq' => by simp at hq', fun e _ => Or.inl rfl,
            fun q hq => by simp at hq, fun _ _ _ => rfl,
            fun q _ _ _ _ h _ => by omega⟩
        · rw [if_neg hcap]
          rcases conflictRead with _ | q1
          · simp only []
            exact ⟨fun q' hq' => by simp at hq', fun e _ => Or.inl (by trivial),
              fun q hq => by simp at hq, fun _ _ h => absurd h hcap,
              fun q _ _ hq => by simp at hq⟩
          · have hq1 : q1 ≤ stock := hcr q1 rfl
            simp only []
            by_cases hcap2 : stock < q1 + (normalizeQuantity qty).getD 1
            · rw [if_pos hcap2]
              exact ⟨fun q' hq' => by simp at hq' ⊢; omega, fun e _ => Or.inr rfl,
                fun q hq => by simp at hq, fun _ _ h => absurd h hcap,
                fun q _ _ hq _ _ h => by simp at hq; subst hq; rfl⟩
            · rw [if_neg hcap2]
              exact ⟨fun q' hq' => by simp at hq' ⊢; omega, fun e he => by simp at he,
                fun q hq => by simp at hq, fun _ _ h => absurd h hcap,
                fun q _ _ hq _ _ h => by simp at hq; omega⟩
      · -- other storage error
        simp only []
        by_cases hcap : stock < (normalizeQuantity qty).getD 1
        · rw [if_pos hcap]
          exact ⟨fun q' hq' => by simp at hq', fun e _ => Or.inl rfl,
            fun q hq => by simp at hq, fun _ _ _ => rfl,
            fun q _ hco => by simp at hco⟩
        · rw [if_neg hcap]
          exact ⟨fun q' hq' => by simp at hq', fun e _ => Or.inl rfl,
            fun q hq => by simp at hq, fun _ _ h => absurd h hcap,
            fun q _ hco => by simp at hco⟩
    · -- existing relation found
      have hq0 : q0 ≤ stock := hex q0 rfl
      simp only []
      by_cases hcap : stock < q0 + (normalizeQuantity qty).getD 1
      · rw [if_pos hcap]
        exact ⟨fun q' hq' => by simp at hq' ⊢; omega, fun e _ => Or.inl rfl,
          fun q hq h1 h2 => by simp at hq; subst hq; rfl,
          fun h => by simp at h, fun q h => by simp at h⟩
      · rw [if_neg hcap]
        exact ⟨fun q' hq' => by simp at hq' ⊢; omega, fun e he => by simp at he,
          fun q hq h1 h2 => by simp at hq; omega,
          fun h => by simp at h, fun q h => by simp at h⟩

/-- Witness for C4 at a concrete store state: stock 10, existing quantity 8,
adding 5 fails the capacity check and leaves the relation at 8. -/
theorem claim4_capacity_witness :
    (∀ q', (addToCartItemController true (.num 5) (some 10) (some 8) .ok none).2 = some q' →
      q' ≤ 10) ∧
    addToCartItemController true (.num 5) (some 10) (some 8) .ok none =
      (.error capacityErr, some 8) :=
  ⟨(claim4_capacity (.num 5) 10 (some 8) none .ok
      (fun q hq => by simp at hq; omega) (fun q hq => by simp at hq)).1,
    (claim4_capacity (.num 5) 10 (some 8) none .ok
      (fun q hq => by simp at hq; omega) (fun q hq => by simp at hq)).2.2.1 8 rfl
      (by decide) (by decide)⟩

/-! ## Lemmas: sort orders -/

theorem specLe_offset_iff (a b : Rec) :
    specLe (buildSort none) a b ↔ dcode b.createdAt ≤ dcode a.createdAt := by
  show specLe [(MField.createdAt, -1)] a b ↔ _
  unfold specLe
  simp only [specCmp, fieldCmp]
  rw [if_neg (show ¬((0 : Int) ≤ -1) by norm_num)]
  rcases Nat.lt_trichotomy (dcode b.createdAt) (dcode a.createdAt) with h | h | h
  · rw [Nat.compare_eq_lt.mpr h]
    simp only []
    exact ⟨fun _ => by omega, fun _ => by decide⟩
  · rw [Nat.compare_eq_eq.mpr h]
    simp only []
    exact ⟨fun _ => by omega, fun _ => by decide⟩
  · rw [Nat.compare_eq_gt.mpr h]
    simp only []
    exact ⟨fun hh => absurd rfl hh, fun hh => absurd hh (by omega)⟩

theorem specLe_cursor_iff (a b : Rec) :
    specLe (cursorSortSpec none) a b ↔
      (dcode b.createdAt < dcode a.createdAt ∨
        (dcode b.createdAt = dcode a.createdAt ∧ hexVal b.id ≤ hexVal a.id)) := by
  show specLe [(MField.createdAt, -1), (MField.id, -1)] a b ↔ _
  unfold specLe
  simp only [specCmp, fieldCmp]
  rw [if_neg (show ¬((0 : Int) ≤ -1) by norm_num), if_neg (show ¬((0 : Int) ≤ -1) by norm_num)]
  rcases Nat.lt_trichotomy (dcode b.createdAt) (dcode a.createdAt) with h | h | h
  · rw [Nat.compare_eq_lt.mpr h]
    simp only []
    exact ⟨fun _ => Or.inl h, fun _ => by decide⟩
  · rw [Nat.compare_eq_eq.mpr h]
    simp only []
    rcases Nat.lt_trichotomy (hexVal b.id) (hexVal a.id) with h2 | h2 | h2
    · rw [Nat.compare_eq_lt.mpr h2]
      simp only []
      exact ⟨fun _ => Or.inr ⟨h, by omega⟩, fun _ => by decide⟩
    · rw [Nat.compare_eq_eq.mpr h2]
      simp only []
      exact ⟨fun _ => Or.inr ⟨h, by omega⟩, fun _ => by decide⟩
    · rw [Nat.compare_eq_gt.mpr h2]
      simp only []
      exact ⟨fun hh => absurd rfl hh, fun hh => absurd hh (by omega)⟩
  · rw [Nat.compare_eq_gt.mpr h]
    simp only []
    exact ⟨fun hh => absurd rfl hh, fun hh => absurd hh (by omega)⟩

theorem specLe_cursor_total (a b : Rec) :
    specLe (cursorSortSpec none) a b ∨ specLe (cursorSortSpec none) b a := by
  rw [specLe_cursor_iff, specLe_cursor_iff]
  omega

theorem specLe_cursor_trans {a b c : Rec} (h1 : specLe (cursorSortSpec none) a b)
    (h2 : specLe (cursorSortSpec none) b c) : specLe (cursorSortSpec none) a c := by
  rw [specLe_cursor_iff] at h1 h2 ⊢
  omega

theorem specLe_offset_total (a b : Rec) :
    specLe (buildSort none) a b ∨ specLe (buildSort none) b a := by
  rw [specLe_offset_iff, specLe_offset_iff]
  omega

theorem specLe_offset_trans {a b c : Rec} (h1 : specLe (buildSort none) a b)
    (h2 : specLe (buildSort none) b c) : specLe (buildSort none) a c := by
  rw [specLe_offset_iff] at h1 h2 ⊢
  omega

theorem dcode_inj {d e : DateRec} (hd : d.Valid) (he : e.Valid) (h : dcode d = dcode e) :
    d = e := by
  obtain ⟨hd1, hd2, hd3, hd4, hd5, hd6, hd7, hd8, hd9⟩ := hd
  obtain ⟨he1, he2, he3, he4, he5, he6, he7, he8, he9⟩ := he
  unfold dcode at h
  rcases d with ⟨y1, mo1, dy1, hr1, mi1, sc1, f1⟩
  rcases e with ⟨y2, mo2, dy2, hr2, mi2, sc2, f2⟩
  simp only [DateRec.mk.injEq]
  simp only [] at h hd1 hd2 hd3 hd4 hd5 hd6 hd7 hd8 hd9 he1 he2 he3 he4 he5 he6 he7 he8 he9
  omega

/-- The standing dataset hypotheses of the §8 equivalence property: every
stored document is well-formed and the creation instants are pairwise
distinct. -/
def GoodDataset (ds : List Rec) : Prop :=
  (∀ r ∈ ds, r.createdAt.Valid ∧ isValidObjectId r.id = true) ∧
    List.Pairwise (fun a b => ¬(a.createdAt = b.createdAt)) ds

theorem distinct_dcode {ds : List Rec} (hg : GoodDataset ds) :
    List.Pairwise (fun a b => ¬(dcode a.createdAt = dcode b.createdAt)) ds :=
  List.Pairwise.imp_of_mem
    (fun ha hb hne heq => hne (dcode_inj (hg.1 _ ha).1 (hg.1 _ hb).1 heq)) hg.2

theorem sortedNewest_perm (ds : List Rec) : (sortedNewest ds).Perm ds :=
  List.perm_insertionSort _ _

theorem sortedNewest_sorted (ds : List Rec) :
    List.Pairwise (specLe (cursorSortSpec none)) (sortedNewest ds) := by
  haveI : IsTotal Rec (specLe (cursorSortSpec none)) := ⟨specLe_cursor_total⟩
  haveI : IsTrans Rec (specLe (cursorSortSpec none)) := ⟨fun _ _ _ => specLe_cursor_trans⟩
  exact List.sorted_insertionSort _ _

theorem pairwise_strict_of_cursor {l : List Rec}
    (hs : List.Pairwise (specLe (cursorSortSpec none)) l)
    (hd : List.Pairwise (fun a b => ¬(dcode a.createdAt = dcode b.createdAt)) l) :
    List.Pairwise strictNewer l :=
  (hs.and hd).imp fun h => by
    have h1 := h.1
    rw [specLe_cursor_iff] at h1
    unfold strictNewer
    rcases h with ⟨-, h2⟩
    omega

theorem pairwise_strict_of_offset {l : List Rec}
    (hs : List.Pairwise (specLe (buildSort none)) l)
    (hd : List.Pairwise (fun a b => ¬(dcode a.createdAt = dcode b.createdAt)) l) :
    List.Pairwise strictNewer l :=
  (hs.and hd).imp fun h => by
    have h1 := h.1
    rw [specLe_offset_iff] at h1
    unfold strictNewer
    rcases h with ⟨-, h2⟩
    omega

theorem dcode_ne_symm : ∀ {a b : Rec},
    ¬(dcode a.createdAt = dcode b.createdAt) → ¬(dcode b.createdAt = dcode a.createdAt) :=
  fun h heq => h heq.symm

theorem sortedNewest_distinct {ds : List Rec} (hg : GoodDataset ds) :
    List.Pairwise (fun a b => ¬(dcode a.createdAt = dcode b.createdAt)) (sortedNewest ds) :=
  ((sortedNewest_perm ds).pairwise_iff dcode_ne_symm).mpr (distinct_dcode hg)

theorem sortedNewest_strict {ds : List Rec} (hg : GoodDataset ds) :
    List.Pairwise strictNewer (sortedNewest ds) :=
  pairwise_strict_of_cursor (sortedNewest_sorted ds) (sortedNewest_distinct hg)

theorem strictNewer_antisymm : ∀ a b : Rec, strictNewer a b → strictNewer b a → a = b :=
  fun _ _ h1 h2 => absurd h1 (by unfold strictNewer at h2 ⊢; omega)

theorem insertionSort_offset_eq {ds : List Rec} (hg : GoodDataset ds) :
    List.insertionSort (specLe (buildSort none)) ds = sortedNewest ds := by
  haveI : IsAntisymm Rec strictNewer := ⟨strictNewer_antisymm⟩
  haveI : IsTotal Rec (specLe (buildSort none)) := ⟨specLe_offset_total⟩
  haveI : IsTrans Rec (specLe (buildSort none)) := ⟨fun _ _ _ => specLe_offset_trans⟩
  refine List.eq_of_perm_of_sorted (r := strictNewer) ?_ ?_ (sortedNewest_strict hg)
  · exact (List.perm_insertionSort _ _).trans (sortedNewest_perm ds).symm
  · refine pairwise_strict_of_offset (List.sorted_insertionSort _ _) ?_
    exact ((List.perm_insertionSort _ ds).pairwise_iff dcode_ne_symm).mpr (distinct_dcode hg)

theorem insertionSort_filter {ds : List Rec} (hg : GoodDataset ds) (p : Rec → Bool) :
    List.insertionSort (specLe (cursorSortSpec none)) (ds.filter p) =
      (sortedNewest ds).filter p := by
  haveI : IsAntisymm Rec strictNewer := ⟨strictNewer_antisymm⟩
  refine List.eq_of_perm_of_sorted (r := strictNewer) ?_ ?_
    ((sortedNewest_strict hg).filter p)
  · exact (List.perm_insertionSort _ _).trans ((sortedNewest_perm ds).filter p).symm
  · refine pairwise_strict_of_cursor (sortedNewest_sorted _) ?_
    refine ((List.perm_insertionSort _ _).pairwise_iff dcode_ne_symm).mpr ?_
    exact (distinct_dcode hg).filter p

/-! ## Lemmas: keyset filtering selects a suffix -/

theorem keyset_self_false (x : Rec) :
    evalQ (buildCursorFilter ⟨x.createdAt, x.id⟩ none) x = false := by
  rw [Bool.eq_false_iff]
  intro h
  rw [evalQ_keyset_newest _ _ _ (by simp)] at h
  simp only [] at h
  omega

theorem keyset_of_strict {x b : Rec} (h : strictNewer x b) :
    evalQ (buildCursorFilter ⟨x.createdAt, x.id⟩ none) b = true := by
  rw [evalQ_keyset_newest _ _ _ (by simp)]
  exact Or.inl h

theorem keyset_of_newer {a x : Rec} (h : strictNewer a x) :
    evalQ (buildCursorFilter ⟨x.createdAt, x.id⟩ none) a = false := by
  rw [Bool.eq_false_iff]
  intro hh
  rw [evalQ_keyset_newest _ _ _ (by simp)] at hh
  simp only [] at hh
  unfold strictNewer at h
  omega

theorem filter_keyset_of_append :
    ∀ (A : List Rec) (x : Rec) (B S : List Rec), S = A ++ x :: B →
      List.Pairwise strictNewer S →
      S.filter (fun r => evalQ (buildCursorFilter ⟨x.createdAt, x.id⟩ none) r) = B := by
  intro A
  induction A with
  | nil =>
    intro x B S hS hPW
    subst hS
    rw [List.nil_append] at hPW ⊢
    rw [List.filter_cons, keyset_self_false]
    simp only [Bool.false_eq_true, if_false]
    rw [List.filter_eq_self]
    intro b hb
    exact keyset_of_strict ((List.pairwise_cons.mp hPW).1 b hb)
  | cons a A' ih =>
    intro x B S hS hPW
    subst hS
    rw [List.cons_append] at hPW ⊢
    obtain ⟨ha, htail⟩ := List.pairwise_cons.mp hPW
    rw [List.filter_cons, keyset_of_newer (ha x (by simp))]
    simp only [Bool.false_eq_true, if_false]
    exact ih x B _ rfl htail

/-! ## Lemmas: page evaluation -/

theorem parsePagination_none_limit {L : Nat} (h1 : 1 ≤ L) (h2 : L ≤ 100) :
    parsePagination none (some (L : Int)) = (1, L) := by
  unfold parsePagination
  simp only []
  rw [if_neg (by omega)]
  simp only [Prod.mk.injEq]
  constructor <;> omega

theorem parsePagination_page_limit (i : Nat) {L : Nat} (h1 : 1 ≤ L) (h2 : L ≤ 100) :
    parsePagination (some ((i : Int) + 1)) (some (L : Int)) = (i + 1, L) := by
  unfold parsePagination
  simp only []
  rw [if_neg (by omega), if_neg (by omega)]
  simp only [Prod.mk.injEq]
  constructor <;> omega

theorem listProductsM_cursor_newest {ds : List Rec} (hg : GoodDataset ds) {L : Nat}
    (hL1 : 1 ≤ L) (hL2 : L ≤ 100) {r : Rec} (hrd : r.createdAt.Valid)
    (hri : isValidObjectId r.id = true) :
    listProductsM ds .trueQ none (some (encodeCursor r)) none (some (L : Int)) =
      (let T := (sortedNewest ds).filter
        (fun x => evalQ (buildCursorFilter ⟨r.createdAt, r.id⟩ none) x)
       let fetched := T.take (L + 1)
       let hasNext := decide (L < fetched.length)
       let products := if hasNext then fetched.dropLast else fetched
       .ok (.cursorRes ⟨products, L,
         if hasNext then products.getLast?.map encodeCursor else none, hasNext⟩)) := by
  unfold listProductsM
  rw [parsePagination_none_limit hL1 hL2]
  simp only []
  rw [if_neg (show ¬(sortKeyTruthyNotOldest none = true) by decide)]
  rw [decodeCursor_encodeCursor hrd hri]
  simp only [combineQuery]
  unfold findM
  rw [List.drop_zero, insertionSort_filter hg]
  simp only [if_true]

theorem cursorWalkFrom_drop {ds : List Rec} (hg : GoodDataset ds) {L : Nat}
    (hL1 : 1 ≤ L) (hL2 : L ≤ 100) :
    ∀ (fuel m : Nat) (r : Rec), r.createdAt.Valid → isValidObjectId r.id = true →
      ((sortedNewest ds).filter
          (fun x => evalQ (buildCursorFilter ⟨r.createdAt, r.id⟩ none) x) =
        (sortedNewest ds).drop m) →
      (sortedNewest ds).length - m < fuel →
      cursorWalkFrom ds L fuel (some (encodeCursor r)) = (sortedNewest ds).drop m := by
  intro fuel
  induction fuel with
  | zero =>
    intro m r _ _ _ hf
    omega
  | succ fuel ih =>
    intro m r hrd hri hfilter hf
    unfold cursorWalkFrom
    rw [listProductsM_cursor_newest hg hL1 hL2 hrd hri]
    simp only []
    rw [hfilter]
    by_cases hlen : L < ((sortedNewest ds).drop m).length
    · -- a full page: pop the sentinel, follow the derived cursor
      have hTlen : (((sortedNewest ds).drop m).take (L + 1)).length = L + 1 := by
        rw [List.length_take]
        omega
      have hdec : decide (L < (((sortedNewest ds).drop m).take (L + 1)).length) = true :=
        decide_eq_true (by omega)
      rw [hdec]
      simp only [if_true]
      have hprod : (((sortedNewest ds).drop m).take (L + 1)).dropLast =
          ((sortedNewest ds).drop m).take L := by
        rw [List.dropLast_eq_take, hTlen, List.take_take]
        congr 1
        omega
      rw [hprod]
      have hmlen : m + L ≤ (sortedNewest ds).length := by
        rw [List.length_drop] at hlen
        omega
      have hidx : m + (L - 1) < (sortedNewest ds).length := by omega
      have hlast : (((sortedNewest ds).drop m).take L).getLast? =
          some ((sortedNewest ds)[m + (L - 1)]) := by
        have hlenL : (((sortedNewest ds).drop m).take L).length = L := by
          rw [List.length_take, List.length_drop]
          omega
        rw [List.getLast?_eq_getElem?, hlenL,
          List.getElem?_eq_getElem (by rw [hlenL]; omega)]
        congr 1
        rw [List.getElem_take, List.getElem_drop]
      rw [hlast]
      simp only [Option.map_some']
      have hxmem : (sortedNewest ds)[m + (L - 1)] ∈ ds :=
        (sortedNewest_perm ds).mem_iff.mp (List.getElem_mem hidx)
      have hfilter2 : (sortedNewest ds).filter
          (fun x => evalQ (buildCursorFilter
            ⟨(sortedNewest ds)[m + (L - 1)].createdAt,
              (sortedNewest ds)[m + (L - 1)].id⟩ none) x) =
          (sortedNewest ds).drop (m + (L - 1) + 1) := by
        refine filter_keyset_of_append ((sortedNewest ds).take (m + (L - 1)))
          ((sortedNewest ds)[m + (L - 1)]) ((sortedNewest ds).drop (m + (L - 1) + 1))
          (sortedNewest ds) ?_ (sortedNewest_strict hg)
        conv_lhs => rw [← List.take_append_drop (m + (L - 1)) (sortedNewest ds)]
        rw [List.drop_eq_getElem_cons hidx]
      rw [ih (m + (L - 1) + 1) _ (hg.1 _ hxmem).1 (hg.1 _ hxmem).2 hfilter2 (by omega)]
      have hstep : m + (L - 1) + 1 = m + L := by omega
      rw [hstep, show (sortedNewest ds).drop (m + L) =
        ((sortedNewest ds).drop m).drop L from by rw [List.drop_drop]]
      exact List.take_append_drop L _
    · -- a short page: no next page, the walk stops with the suffix
      have htake : ((sortedNewest ds).drop m).take (L + 1) = (sortedNewest ds).drop m :=
        List.take_of_length_le (by omega)
      rw [htake]
      have hdec : decide (L < ((sortedNewest ds).drop m).length) = false :=
        decide_eq_false (by omega)
      rw [hdec]
      simp only [Bool.false_eq_true, if_false]

theorem filter_trueQ (ds : List Rec) : ds.filter (evalQ .trueQ) = ds :=
  List.filter_eq_self.mpr fun _ _ => rfl

theorem parsePagination_one_limit {L : Nat} (h1 : 1 ≤ L) (h2 : L ≤ 100) :
    parsePagination (some 1) (some (L : Int)) = (1, L) := by
  unfold parsePagination
  simp only []
  rw [if_neg (by omega), if_neg (by omega)]
  simp only [Prod.mk.injEq]
  constructor <;> omega

theorem listProductsM_offset_page {ds : List Rec} (hg : GoodDataset ds) {L : Nat}
    (hL1 : 1 ≤ L) (hL2 : L ≤ 100) (i : Nat) :
    listProductsM ds .trueQ none none (some ((i : Int) + 1)) (some (L : Int)) =
      .ok (.offsetRes ⟨((sortedNewest ds).drop (i * L)).take L, ds.length, i + 1, L,
        (ds.length + L - 1) / L⟩) := by
  unfold listProductsM
  rw [parsePagination_page_limit i hL1 hL2]
  simp only []
  unfold findM countM
  rw [filter_trueQ, insertionSort_offset_eq hg]
  rw [show i + 1 - 1 = i from rfl]

theorem listProductsM_offset_first {ds : List Rec} (hg : GoodDataset ds) {L : Nat}
    (hL1 : 1 ≤ L) (hL2 : L ≤ 100) :
    totalPagesOf (listProductsM ds .trueQ none none (some 1) (some (L : Int))) =
      (ds.length + L - 1) / L := by
  unfold listProductsM
  rw [parsePagination_one_limit hL1 hL2]
  simp only []
  unfold countM
  rw [filter_trueQ]
  rfl

theorem flatten_chunks (S : List Rec) (L : Nat) :
    ∀ n : Nat,
      (((List.range n).map fun i => (S.drop (i * L)).take L).flatten) = S.take (n * L) := by
  intro n
  induction n with
  | zero => simp
  | succ n ihn =>
    rw [List.range_succ, List.map_append, List.flatten_append, ihn]
    simp only [List.map_cons, List.map_nil, List.flatten_cons, List.flatten_nil,
      List.append_nil]
    rw [show (n + 1) * L = n * L + L from by ring, List.take_add]

theorem ceil_mul_ge (N L : Nat) (hL : 1 ≤ L) : N ≤ ((N + L - 1) / L) * L := by
  by_contra hcon
  push_neg at hcon
  have h1 : ((N + L - 1) / L) * L + L ≤ N + L - 1 := by omega
  have h2 : (N + L - 1) / L + 1 ≤ (N + L - 1) / L := by
    rw [Nat.le_div_iff_mul_le (by omega)]
    calc ((N + L - 1) / L + 1) * L = ((N + L - 1) / L) * L + L := by ring
    _ ≤ N + L - 1 := h1
  omega

theorem offsetWalk_eq {ds : List Rec} (hg : GoodDataset ds) {L : Nat}
    (hL1 : 1 ≤ L) (hL2 : L ≤ 100) : offsetWalk ds L = sortedNewest ds := by
  unfold offsetWalk
  simp only []
  rw [listProductsM_offset_first hg hL1 hL2]
  rw [List.map_congr_left fun i _ => by rw [listProductsM_offset_page hg hL1 hL2 i]]
  simp only [productsOf]
  rw [flatten_chunks]
  refine List.take_of_length_le ?_
  rw [(sortedNewest_perm ds).length_eq]
  exact ceil_mul_ge ds.length L hL1

/-! ## Claim C8 -/

/-- C8 counterexample: on the static two-record dataset `[recA, recB]` with
distinct `createdAt` values and page size 1, the walk the claim describes —
start *without* a cursor, then follow `nextCursor` while `hasNextPage` — does
not reproduce the offset-mode concatenation: a request without a cursor takes
the offset branch, whose response has no `nextCursor`/`hasNextPage` at all,
so the walk ends after one page with 1 of the 2 records. -/
theorem claim8_counterexample :
    ¬(cursorWalk [recA, recB] 1 = offsetWalk [recA, recB] 1) := by
  decide

/-- C8 amended: on a static dataset with pairwise-distinct `createdAt` values
(all records well-formed), the concatenation of all offset-mode pages in
`newest` order equals the concatenation of the cursor-mode pages — provided
the cursor walk is seeded with a cursor strictly newer than every record
(cursor mode only activates when a cursor is supplied; the claim's
start-without-a-cursor walk stops after one offset page, see the
counterexample). -/
theorem claim8_walk_equivalence (ds : List Rec) (L : Nat) (r0 : Rec)
    (hL1 : 1 ≤ L) (hL2 : L ≤ 100) (hg : GoodDataset ds)
    (hr0d : r0.createdAt.Valid) (hr0i : isValidObjectId r0.id = true)
    (h0 : ∀ r ∈ ds, dcode r.createdAt < dcode r0.createdAt) :
    offsetWalk ds L = cursorWalkFrom ds L (ds.length + 1) (some (encodeCursor r0)) := by
  have hfilter : (sortedNewest ds).filter
      (fun x => evalQ (buildCursorFilter ⟨r0.createdAt, r0.id⟩ none) x) =
      (sortedNewest ds).drop 0 := by
    rw [List.drop_zero]
    apply List.filter_eq_self.mpr
    intro x hx
    rw [evalQ_keyset_newest _ _ _ (by simp)]
    exact Or.inl (h0 x ((sortedNewest_perm ds).mem_iff.mp hx))
  have hwalk := cursorWalkFrom_drop hg hL1 hL2 (ds.length + 1) 0 r0 hr0d hr0i hfilter
    (by rw [(sortedNewest_perm ds).length_eq]; omega)
  rw [offsetWalk_eq hg hL1 hL2, hwalk, List.drop_zero]

/-- Witness for C8 at the concrete three-record dataset, page size 2, seeded
with a cursor encoding the strictly newer document `recTop`. -/
theorem claim8_walk_equivalence_witness :
    offsetWalk sampleDataset 2 =
      cursorWalkFrom sampleDataset 2 (sampleDataset.length + 1)
        (some (encodeCursor recTop)) :=
  claim8_walk_equivalence sampleDataset 2 recTop (by decide) (by decide)
    ⟨by decide, by decide⟩ (by decide) (by decide) (by decide)

end ECom
